import Mathlib

/-!
Verification of the Web_Scraping_Agent repository against its specification.

The Python sources are shallowly embedded: records (Python dicts of scraped
fields) become association lists over an inductive value type, numeric work
is done in the rationals (all price and rating arithmetic in the code is
exact decimal arithmetic on the inputs of interest), fallible code returns
Option or Except, and the file-system and network boundaries become explicit
state or outcome parameters.
-/

/-! ## Basic string helpers mirroring Python primitives -/

/-- Does the character list start with the given pattern (Python prefix test). -/
def startsWithL : List Char → List Char → Bool
  | _, [] => true
  | [], _ :: _ => false
  | x :: xs, p :: ps => x == p && startsWithL xs ps

/-- Python substring containment, pat in s, on character lists. -/
def hasSubstr : List Char → List Char → Bool
  | [], pat => pat.isEmpty
  | l@(_ :: xs), pat => startsWithL l pat || hasSubstr xs pat

/-- Python substring containment on strings. -/
def strContains (s pat : String) : Bool :=
  hasSubstr s.toList pat.toList

/-- Python s.endswith(suf). -/
def strEndsWith (s suf : String) : Bool :=
  startsWithL s.toList.reverse suf.toList.reverse

/-- Python s.lower() for the ASCII data handled by this system. -/
def strLower (s : String) : String :=
  String.mk (s.toList.map Char.toLower)

/-- Python s.split() with no argument: split on whitespace runs, drop empties. -/
def wsSplit (s : String) : List String :=
  ((s.toList.splitOnP fun c => c.isWhitespace).filter fun l => !l.isEmpty).map String.mk

/-- Python " ".join(s.split()), the whitespace-collapsing idiom used throughout. -/
def wsCollapse (s : String) : String :=
  String.intercalate " " (wsSplit s)

/-- Python s.split(c) on character lists: separators delimit (possibly empty) parts. -/
def splitOnChar : List Char → Char → List (List Char)
  | [], _ => [[]]
  | x :: xs, c =>
    match splitOnChar xs c with
    | [] => if x == c then [[], []] else [[x]]
    | h :: t => if x == c then [] :: h :: t else (x :: h) :: t

/-- Python s.strip() on a character list. -/
def pyStripL (l : List Char) : List Char :=
  ((l.dropWhile Char.isWhitespace).reverse.dropWhile Char.isWhitespace).reverse

/-- Numeric value of a list of decimal digits. -/
def digitsToNat (l : List Char) : Nat :=
  l.foldl (fun a c => a * 10 + (c.toNat - 48)) 0

/-- Index of the last occurrence of a character (Python rindex; only used when present). -/
def rindexOf (l : List Char) (c : Char) : Nat :=
  l.length - 1 - l.reverse.findIdx (· == c)

/-- Python float(s) restricted to the plain decimal forms this system produces:
optional sign, digits with at most one point, at least one digit.  The value is
modelled exactly in the rationals. -/
def pyFloatOfString (s : String) : Option ℚ :=
  let cs := pyStripL s.toList
  let signed : ℚ × List Char :=
    match cs with
    | '+' :: r => (1, r)
    | '-' :: r => (-1, r)
    | r => (1, r)
  let sign := signed.1
  let body := signed.2
  if body.all (fun c => c.isDigit || c == '.') then
    if body.any (· == '.') then
      let ip := body.takeWhile (· != '.')
      let rest := (body.dropWhile (· != '.')).tail
      if rest.any (· == '.') then none
      else if ip.isEmpty && rest.isEmpty then none
      else some (sign * ((digitsToNat ip : ℚ) + (digitsToNat rest : ℚ) / (10 : ℚ) ^ rest.length))
    else if body.isEmpty then none
    else some (sign * (digitsToNat body : ℚ))
  else none

/-- Python int(s) on a string: optional sign and a nonempty digit run. -/
def pyIntOfString (s : String) : Option ℤ :=
  let cs := pyStripL s.toList
  let signed : ℤ × List Char :=
    match cs with
    | '+' :: r => (1, r)
    | '-' :: r => (-1, r)
    | r => (1, r)
  if signed.2.isEmpty then none
  else if signed.2.all (fun c => c.isDigit) then some (signed.1 * (digitsToNat signed.2 : ℤ))
  else none

/-- Python round-half-to-even of a rational to an integer. -/
def roundHalfEvenInt (q : ℚ) : ℤ :=
  let f := ⌊q⌋
  let r := q - (f : ℚ)
  if r < 1 / 2 then f
  else if r > 1 / 2 then f + 1
  else if f % 2 = 0 then f else f + 1

/-- Python round(x, 2) as used by DataCleaner.clean_prices. -/
def pyRound2 (q : ℚ) : ℚ :=
  (roundHalfEvenInt (q * 100) : ℚ) / 100

/-! ## Shared price parsing

src/data/processor.py lines 165-186 (DataProcessor._process_price, string case)
and src/data/cleaner.py lines 397-418 (inside DataCleaner.clean_prices) contain
the same separator-disambiguation algorithm character for character; it is
embedded once here. -/

/-- The string branch of DataProcessor._process_price and of
DataCleaner.clean_prices: keep digits and separators, disambiguate comma and
period by position, then parse as a float. -/
def parse_price_str (value : String) : Option ℚ :=
  let cs := value.toList.filter fun c => c.isDigit || c == '.' || c == ','
  let cs2 :=
    if cs.contains ',' && cs.contains '.' then
      if rindexOf cs '.' > rindexOf cs ',' then
        cs.filter (· != ',')
      else
        ((cs.filter (· != '.')).map fun c => if c == ',' then '.' else c)
    else if cs.contains ',' then
      if cs.length - rindexOf cs ',' ≤ 3 then
        cs.map fun c => if c == ',' then '.' else c
      else
        cs.filter (· != ',')
    else cs
  pyFloatOfString (String.mk cs2)

/-- WebScraperAgent._convert_price, src/agent.py lines 275-295: keep digits and
separators, replace every comma with a period, and when more than one period
remains keep only the last one as the decimal point. -/
def convert_price (price_str : String) : Option ℚ :=
  if price_str = "" then none
  else
    let digits_only := price_str.toList.filter fun c => c.isDigit || c == '.' || c == ','
    let normalized := digits_only.map fun c => if c == ',' then '.' else c
    let normalized2 :=
      if (normalized.count '.') > 1 then
        let parts := splitOnChar normalized '.'
        parts.dropLast.flatten ++ '.' :: parts.getLastD []
      else normalized
    pyFloatOfString (String.mk normalized2)

/-! ## Data model: Python record values

Scraped records are Python dicts with string keys; they are embedded as
association lists in insertion order (Python dicts preserve it).  The value
universe covers the shapes the pipelines produce: None, strings, ints,
floats (exact rationals) and lists. -/

inductive PyVal where
  | vNone
  | vStr (s : String)
  | vInt (n : ℤ)
  | vFloat (q : ℚ)
  | vList (l : List PyVal)

/-- A scraped or processed record: one Python dict. -/
abbrev Record := List (String × PyVal)

/-- Python d.get(k): first binding wins (dict keys are unique). -/
def dlookup {α : Type} : List (String × α) → String → Option α
  | [], _ => none
  | p :: r, k => if p.1 == k then some p.2 else dlookup r k

/-- Python k in d. -/
def keyMem {α : Type} (r : List (String × α)) (k : String) : Bool :=
  r.any fun p => p.1 == k

/-- Python d[k] = v: overwrite in place if the key exists, else append (dict
keys are unique, so replacing the first occurrence is the dict update). -/
def dictInsert {α : Type} : List (String × α) → String → α → List (String × α)
  | [], k, v => [(k, v)]
  | p :: r, k, v => if p.1 == k then (k, v) :: r else p :: dictInsert r k v

/-! ## DataProcessor per-field converters (src/data/processor.py) -/

/-- DataProcessor._process_price, lines 149-190: numbers pass through as
floats, strings go through the shared separator rule, anything else is None. -/
def process_price : PyVal → Option ℚ
  | .vInt n => some (n : ℚ)
  | .vFloat q => some q
  | .vStr s => parse_price_str s
  | _ => none

/-- The first maximal run of digit-or-dot characters, the match of the
regular expression for one or more digits or dots used by _process_rating;
none when no such character occurs. -/
def firstNumRun (l : List Char) : Option (List Char) :=
  let isNum := fun c : Char => c.isDigit || c == '.'
  let rest := l.dropWhile fun c => !isNum c
  if rest.isEmpty then none else some (rest.takeWhile isNum)

/-- DataProcessor._process_rating, src/data/processor.py lines 304-340:
extract the first numeric substring, then rescale to a /5 scale when the text
suggests /10 or /100 (or a percent sign). -/
def process_rating : PyVal → Option ℚ
  | .vInt n => some (n : ℚ)
  | .vFloat q => some q
  | .vStr value =>
    match firstNumRun value.toList with
    | none => none
    | some run =>
      match pyFloatOfString (String.mk run) with
      | none => none
      | some rating =>
        let lower := strLower value
        if strContains lower "out of 5" || strContains value "/5" || strEndsWith lower "5" then
          some rating
        else if strContains lower "out of 10" || strContains value "/10" || strEndsWith lower "10" then
          some (rating / 2)
        else if strContains lower "out of 100" || strContains value "/100"
            || strEndsWith lower "100" || strContains value "%" then
          some (rating / 20)
        else
          some rating
  | _ => none

/-! ## DataCleaner.clean_prices (src/data/cleaner.py lines 365-425) -/

/-- The default price field list of clean_prices. -/
def default_price_fields : List String :=
  ["price", "cost", "amount", "product_price", "item_price", "value"]

/-- One field's transformation inside clean_prices: numbers are rounded to two
decimals, strings go through the shared separator rule and are rounded on
success and kept verbatim on failure, other values pass through. -/
def clean_price_value : PyVal → PyVal
  | .vInt n => .vFloat (pyRound2 (n : ℚ))
  | .vFloat q => .vFloat (pyRound2 q)
  | .vStr s =>
    match parse_price_str s with
    | some q => .vFloat (pyRound2 q)
    | none => .vStr s
  | v => v

/-- DataCleaner.clean_prices: rewrite every configured price field of every
record through clean_price_value, leaving all other fields untouched. -/
def clean_prices (data : List Record) (price_fields : List String) : List Record :=
  data.map fun item =>
    item.map fun p => if price_fields.contains p.1 then (p.1, clean_price_value p.2) else p

/-! ## DataCleaner field-name standardization (src/data/cleaner.py lines 177-251) -/

/-- The fixed variant table of _create_field_mapping. -/
def common_variants : List (String × List String) :=
  [("title", ["name", "heading", "product_title", "product_name", "item_title", "item_name"]),
   ("description", ["desc", "content", "product_description", "item_description", "details", "summary"]),
   ("price", ["cost", "amount", "product_price", "item_price", "value"]),
   ("url", ["link", "href", "product_url", "item_url", "page"]),
   ("image", ["img", "picture", "photo", "thumbnail", "product_image", "item_image"]),
   ("rating", ["rate", "stars", "score", "product_rating", "item_rating", "review"]),
   ("category", ["cat", "group", "type", "product_category", "item_category"]),
   ("brand", ["make", "manufacturer", "company", "product_brand", "item_brand"]),
   ("sku", ["id", "product_id", "item_id", "identifier", "product_code", "item_code"])]

/-- The mapping entries contributed by one variant row: for each variant, the
observed fields matching it case-insensitively are mapped to the canonical
name, except that the whole variant is skipped when the canonical name is
itself among the observed fields. -/
def rowEntries (fields : List String) (std : String) (variants : List String) :
    List (String × String) :=
  variants.flatMap fun variant =>
    if fields.contains std && !(fields.filter fun f => strLower f == strLower variant).isEmpty
    then []
    else (fields.filter fun f => strLower f == strLower variant).map fun m => (m, std)

/-- DataCleaner._create_field_mapping over the observed field names. -/
def create_field_mapping (fields : List String) : List (String × String) :=
  (common_variants.map fun p => rowEntries fields p.1 p.2).flatten

/-- The union of field names observed across a batch, in first-appearance
order (the membership view of the Python set). -/
def allFields (data : List Record) : List String :=
  (data.flatMap fun item => item.map (·.1)).dedup

/-- Field-name rewriting of one record through the mapping (later duplicate
targets overwrite earlier ones, as Python dict assignment does). -/
def standardize_item (mapping : List (String × String)) (item : Record) : Record :=
  item.foldl (fun acc p => dictInsert acc ((dlookup mapping p.1).getD p.1) p.2) []

/-- DataCleaner._standardize_fields: build the mapping from the observed field
set and rewrite every record through it. -/
def standardize_fields (data : List Record) : List Record :=
  if data.isEmpty then []
  else data.map (standardize_item (create_field_mapping (allFields data)))

/-! ## DataProcessor.sort_data (src/data/processor.py lines 488-519)

The sort key is a Python tuple (marker, payload); tuple comparison first tests
the components for equality and then orders the first unequal pair, raising
TypeError on cross-type order comparisons.  Comparison is therefore modelled
in Except, error standing for TypeError. -/

inductive KElem where
  | num (q : ℚ)
  | str (s : String)
  | none_

/-- Python == on the key payloads: cross-type equality is False, not an error. -/
def kElemEq : KElem → KElem → Bool
  | .num a, .num b => a == b
  | .str a, .str b => a == b
  | .none_, .none_ => true
  | _, _ => false

/-- Python < on the key payloads: ordering across types (or on None) raises. -/
def kElemLt : KElem → KElem → Except Unit Bool
  | .num a, .num b => .ok (decide (a < b))
  | .str a, .str b => .ok (decide (a < b))
  | _, _ => .error ()

/-- Python < on the (marker, payload) tuples produced by sort_key. -/
def sortKeyLt (a b : Nat × KElem) : Except Unit Bool :=
  if a.1 ≠ b.1 then .ok (decide (a.1 < b.1))
  else if kElemEq a.2 b.2 then .ok false
  else kElemLt a.2 b.2

/-- The sort_key closure of sort_data.  strOf models Python str() on the list
values that fall into the final catch-all branch; no claim exercises it. -/
def sortKeyOf (strOf : List PyVal → String) (sort_by : String) (ascending : Bool)
    (item : Record) : Nat × KElem :=
  match (dlookup item sort_by).getD .vNone with
  | .vNone => (if ascending then 1 else 0, .none_)
  | .vInt n => (if ascending then 0 else 1, .num (n : ℚ))
  | .vFloat q => (if ascending then 0 else 1, .num q)
  | .vStr s => (if ascending then 0 else 1, .str (strLower s))
  | .vList l => (if ascending then 0 else 1, .str (strOf l))

/-- Stable insertion of one element into an already sorted list, propagating a
comparison error. -/
def insertSorted {α : Type} (lt : α → α → Except Unit Bool) (x : α) :
    List α → Except Unit (List α)
  | [] => .ok [x]
  | y :: ys => do
    let b ← lt x y
    if b then return x :: y :: ys
    else return y :: (← insertSorted lt x ys)

/-- Python sorted(_, key, reverse=False): a stable comparison sort; any
TypeError from a comparison aborts the whole sort. -/
def sortByKey {α : Type} (lt : α → α → Except Unit Bool) (l : List α) :
    Except Unit (List α) :=
  l.foldlM (fun acc x => insertSorted lt x acc) []

/-- DataProcessor.sort_data: empty data or a first record without the sort
field is returned unchanged; otherwise sorted by the tuple key, with
reverse=not ascending realized as reverse, stable ascending sort, reverse. -/
def sort_data (strOf : List PyVal → String) (data : List Record) (sort_by : String)
    (ascending : Bool) : Except Unit (List Record) :=
  match data with
  | [] => .ok []
  | first :: _ =>
    if !(keyMem first sort_by) then .ok data
    else
      let lt := fun a b => sortKeyLt (sortKeyOf strOf sort_by ascending a)
        (sortKeyOf strOf sort_by ascending b)
      if ascending then sortByKey lt data
      else (sortByKey lt data.reverse).map List.reverse

/-! ## DataExporter (src/data/exporter.py)

File output is modelled as the list of (path, content) writes an export call
performs; the pandas flag states whether the spreadsheet library imports.
Exact textual rendering of float cells is irrelevant to the claims and is
abstracted by decimalRepr. -/

inductive FileContent where
  | csvRows (rows : List (List String))
  | jsonArr (items : List Record)
  | excelTable (cols : List String) (rows : List (List PyVal))
  | text (s : String)

/-- Python str.replace(pat, rep), all occurrences. -/
def strReplace (s pat rep : String) : String :=
  String.intercalate rep (s.splitOn pat)

/-- The textual form of a float cell; only its existence matters to the claims. -/
def decimalRepr (q : ℚ) : String :=
  if q.den = 1 then toString q.num ++ ".0"
  else toString q.num ++ "/" ++ toString q.den

mutual

/-- json.dumps for a cell holding a complex value. -/
def jsonDumpVal : PyVal → String
  | .vNone => "null"
  | .vStr s => "\"" ++ s ++ "\""
  | .vInt n => toString n
  | .vFloat q => decimalRepr q
  | .vList l => "[" ++ String.intercalate ", " (jsonDumpList l) ++ "]"

/-- json.dumps of each element of a list value. -/
def jsonDumpList : List PyVal → List String
  | [] => []
  | v :: vs => jsonDumpVal v :: jsonDumpList vs

end

/-- One CSV cell as csv.DictWriter renders it. -/
def csvCell : PyVal → String
  | .vNone => ""
  | .vStr s => s
  | .vInt n => toString n
  | .vFloat q => decimalRepr q
  | .vList l => jsonDumpVal (.vList l)

/-- Extension (with the dot) of a default filename, os.path.splitext style. -/
def extSuffix (name : String) : String :=
  match name.splitOn "." with
  | [] => ""
  | [_] => ""
  | ps => "." ++ ps.getLastD ""

/-- os.path.basename for the slash-separated paths this system builds. -/
def basenameOf (p : String) : String :=
  (p.splitOn "/").getLastD p

/-- os.path.join for the two-component joins this system performs. -/
def joinPath (a b : String) : String :=
  a ++ "/" ++ b

/-- DataExporter._get_output_path, lines 110-137. -/
def get_output_path (cwd : String) (timestamp : Nat) (isDir : String → Bool)
    (default_filename : String) (output_path : Option String) : String :=
  match output_path with
  | none => joinPath cwd (toString timestamp ++ "_" ++ default_filename)
  | some p =>
    if isDir p then joinPath p (toString timestamp ++ "_" ++ default_filename)
    else if !(strContains (basenameOf p) ".") then p ++ extSuffix default_filename
    else p

/-- DataExporter._create_empty_file, lines 62-108: the per-format placeholder
written for an empty record list. -/
def create_empty_file (pandas : Bool) (cwd : String) (ts : Nat) (isDir : String → Bool)
    (format_type : String) (output_path : Option String) :
    String × List (String × FileContent) :=
  if format_type = "csv" then
    let path := get_output_path cwd ts isDir "empty.csv" output_path
    (path, [(path, .csvRows [["no_data"]])])
  else if format_type = "excel" then
    if pandas then
      let path := get_output_path cwd ts isDir "empty.xlsx" output_path
      (path, [(path, .excelTable ["no_data"] [])])
    else
      let path := get_output_path cwd ts isDir "empty.csv" output_path
      (path, [(path, .text "no_data\n")])
  else if format_type = "json" then
    let path := get_output_path cwd ts isDir "empty.json" output_path
    (path, [(path, .jsonArr [])])
  else
    let path := get_output_path cwd ts isDir "empty.txt" output_path
    (path, [(path, .text "No data to export\n")])

/-- DataExporter.export_csv, lines 139-186: header is the sorted union of all
keys, one row per record, complex values JSON-stringified. -/
def export_csv (cwd : String) (ts : Nat) (isDir : String → Bool) (data : List Record)
    (output_path : Option String) : String × List (String × FileContent) :=
  let path := get_output_path cwd ts isDir "data.csv" output_path
  let fieldnames := (allFields data).mergeSort fun a b => a ≤ b
  let rows := data.map fun item =>
    fieldnames.map fun k => ((dlookup item k).map csvCell).getD ""
  (path, [(path, .csvRows (fieldnames :: rows))])

/-- DataExporter.export_excel, lines 188-244: spreadsheet when the library is
available, CSV at the path with the extension swapped when it is not. -/
def export_excel (pandas : Bool) (cwd : String) (ts : Nat) (isDir : String → Bool)
    (data : List Record) (output_path : Option String) :
    String × List (String × FileContent) :=
  let path := get_output_path cwd ts isDir "data.xlsx" output_path
  if !pandas then export_csv cwd ts isDir data (some (strReplace path ".xlsx" ".csv"))
  else
    let cols := allFields data
    let rows := data.map fun item => cols.map fun k => (dlookup item k).getD .vNone
    (path, [(path, .excelTable cols rows)])

/-- DataExporter.export_json, lines 246-272. -/
def export_json (cwd : String) (ts : Nat) (isDir : String → Bool) (data : List Record)
    (output_path : Option String) : String × List (String × FileContent) :=
  let path := get_output_path cwd ts isDir "data.json" output_path
  (path, [(path, .jsonArr data)])

/-- DataExporter.export, lines 20-60: empty input branches to the placeholder
writer before the format is even normalized; otherwise the format is
lower-cased and dispatched, unknown formats defaulting to CSV. -/
def export_data (pandas : Bool) (cwd : String) (ts : Nat) (isDir : String → Bool)
    (data : List Record) (format_type : String) (output_path : Option String) :
    String × List (String × FileContent) :=
  if data.isEmpty then create_empty_file pandas cwd ts isDir format_type output_path
  else
    let fmt := strLower format_type
    if fmt = "csv" then export_csv cwd ts isDir data output_path
    else if fmt = "excel" then export_excel pandas cwd ts isDir data output_path
    else if fmt = "json" then export_json cwd ts isDir data output_path
    else export_csv cwd ts isDir data output_path

/-! ## Pipeline A field normalization and job lifecycle (src/agent.py)

datetime.strptime over the six fixed formats is embedded with the documented
field patterns of the standard library: four-digit years, one-or-two-digit
range-checked month/day/time fields, case-insensitive full month names,
whitespace in the format matching a whitespace run, the whole input consumed,
and the resulting date validated against the calendar. -/

structure DateParts where
  y : Nat
  m : Nat
  d : Nat
  hh : Nat
  mm : Nat
  ss : Nat

/-- A one-or-two-digit numeric field: the two-digit reading is preferred when
in range, as the strptime patterns do. -/
def parse2or1 (valid2 : Nat → Bool) (valid1 : Nat → Bool) :
    List Char → Option (Nat × List Char)
  | c1 :: c2 :: rest =>
    if c1.isDigit && c2.isDigit && valid2 (digitsToNat [c1, c2]) then
      some (digitsToNat [c1, c2], rest)
    else if c1.isDigit && valid1 (digitsToNat [c1]) then some (digitsToNat [c1], c2 :: rest)
    else none
  | [c1] => if c1.isDigit && valid1 (digitsToNat [c1]) then some (digitsToNat [c1], []) else none
  | [] => none

/-- The exactly-four-digit year field. -/
def parseYear4 : List Char → Option (Nat × List Char)
  | a :: b :: c :: d :: rest =>
    if a.isDigit && b.isDigit && c.isDigit && d.isDigit then
      some (digitsToNat [a, b, c, d], rest)
    else none
  | _ => none

/-- One literal character of the format. -/
def parseLit (ch : Char) : List Char → Option (List Char)
  | c :: rest => if c == ch then some rest else none
  | [] => none

/-- A whitespace run standing for a space in the format. -/
def parseWS (l : List Char) : Option (List Char) :=
  match l with
  | c :: rest => if c.isWhitespace then some (rest.dropWhile Char.isWhitespace) else none
  | [] => none

def parseMonth2or1 : List Char → Option (Nat × List Char) :=
  parse2or1 (fun n => 1 ≤ n && n ≤ 12) (fun n => 1 ≤ n)

def parseDay2or1 : List Char → Option (Nat × List Char) :=
  parse2or1 (fun n => 1 ≤ n && n ≤ 31) (fun n => 1 ≤ n)

def parseHour2or1 : List Char → Option (Nat × List Char) :=
  parse2or1 (fun n => n ≤ 23) (fun _ => true)

def parseMinSec2or1 : List Char → Option (Nat × List Char) :=
  parse2or1 (fun n => n ≤ 59) (fun _ => true)

def monthNames : List (Nat × String) :=
  [(1, "january"), (2, "february"), (3, "march"), (4, "april"), (5, "may"), (6, "june"),
   (7, "july"), (8, "august"), (9, "september"), (10, "october"), (11, "november"),
   (12, "december")]

/-- A case-insensitive full month name. -/
def parseMonthName (l : List Char) : Option (Nat × List Char) :=
  monthNames.findSome? fun p =>
    if startsWithL (l.map Char.toLower) p.2.toList then some (p.1, l.drop p.2.toList.length)
    else none

def isLeap (y : Nat) : Bool :=
  (y % 4 == 0 && y % 100 != 0) || y % 400 == 0

def daysInMonth (y m : Nat) : Nat :=
  if m == 2 then (if isLeap y then 29 else 28)
  else if m == 4 || m == 6 || m == 9 || m == 11 then 30
  else 31

/-- The datetime constructor's validation of a parsed date. -/
def validDate (p : DateParts) : Bool :=
  1 ≤ p.y && p.d ≤ daysInMonth p.y p.m

def fmtYmd (l : List Char) : Option DateParts := do
  let (y, l) ← parseYear4 l
  let l ← parseLit '-' l
  let (m, l) ← parseMonth2or1 l
  let l ← parseLit '-' l
  let (d, l) ← parseDay2or1 l
  if l.isEmpty then some ⟨y, m, d, 0, 0, 0⟩ else none

def fmtDmy (l : List Char) : Option DateParts := do
  let (d, l) ← parseDay2or1 l
  let l ← parseLit '/' l
  let (m, l) ← parseMonth2or1 l
  let l ← parseLit '/' l
  let (y, l) ← parseYear4 l
  if l.isEmpty then some ⟨y, m, d, 0, 0, 0⟩ else none

def fmtMdy (l : List Char) : Option DateParts := do
  let (m, l) ← parseMonth2or1 l
  let l ← parseLit '/' l
  let (d, l) ← parseDay2or1 l
  let l ← parseLit '/' l
  let (y, l) ← parseYear4 l
  if l.isEmpty then some ⟨y, m, d, 0, 0, 0⟩ else none

def fmtBdY (l : List Char) : Option DateParts := do
  let (m, l) ← parseMonthName l
  let l ← parseWS l
  let (d, l) ← parseDay2or1 l
  let l ← parseLit ',' l
  let l ← parseWS l
  let (y, l) ← parseYear4 l
  if l.isEmpty then some ⟨y, m, d, 0, 0, 0⟩ else none

def fmtDBY (l : List Char) : Option DateParts := do
  let (d, l) ← parseDay2or1 l
  let l ← parseWS l
  let (m, l) ← parseMonthName l
  let l ← parseWS l
  let (y, l) ← parseYear4 l
  if l.isEmpty then some ⟨y, m, d, 0, 0, 0⟩ else none

def fmtYmdHms (l : List Char) : Option DateParts := do
  let (y, l) ← parseYear4 l
  let l ← parseLit '-' l
  let (m, l) ← parseMonth2or1 l
  let l ← parseLit '-' l
  let (d, l) ← parseDay2or1 l
  let l ← parseWS l
  let (hh, l) ← parseHour2or1 l
  let l ← parseLit ':' l
  let (mm, l) ← parseMinSec2or1 l
  let l ← parseLit ':' l
  let (ss, l) ← parseMinSec2or1 l
  if l.isEmpty then some ⟨y, m, d, hh, mm, ss⟩ else none

def pad2 (n : Nat) : String :=
  if n < 10 then "0" ++ toString n else toString n

def pad4 (n : Nat) : String :=
  if n < 10 then "000" ++ toString n
  else if n < 100 then "00" ++ toString n
  else if n < 1000 then "0" ++ toString n
  else toString n

/-- datetime.isoformat() of a strptime result. -/
def isoformat (p : DateParts) : String :=
  pad4 p.y ++ "-" ++ pad2 p.m ++ "-" ++ pad2 p.d ++ "T" ++ pad2 p.hh ++ ":" ++ pad2 p.mm
    ++ ":" ++ pad2 p.ss

/-- The ordered format list of WebScraperAgent._parse_date, lines 302-309. -/
def tryDateFormats (s : String) : Option DateParts :=
  ([fmtYmd, fmtDmy, fmtMdy, fmtBdY, fmtDBY, fmtYmdHms].findSome? fun f =>
    match f s.toList with
    | some p => if validDate p then some p else none
    | none => none)

/-- WebScraperAgent._clean_text, lines 269-273: collapse whitespace in
nonempty strings, return everything else unchanged. -/
def agent_clean_text : PyVal → PyVal
  | .vStr s => if s = "" then .vStr s else .vStr (wsCollapse s)
  | v => v

/-- WebScraperAgent._parse_date, lines 297-320, lifted to record values:
non-strings and empty strings become None, otherwise the first matching
format's ISO form, or the whitespace-collapsed original on total failure. -/
def agent_parse_date : PyVal → PyVal
  | .vStr s =>
    if s = "" then .vNone
    else
      let cleaned := wsCollapse s
      match tryDateFormats cleaned with
      | some p => .vStr (isoformat p)
      | none => .vStr cleaned
  | _ => .vNone

/-- WebScraperAgent._convert_price lifted to record values: non-strings and
empty strings become None, and so does any parse failure. -/
def agent_convert_price : PyVal → PyVal
  | .vStr s =>
    match convert_price s with
    | some q => .vFloat q
    | none => .vNone
  | _ => .vNone

/-- The per-field dispatch of WebScraperAgent.process_data, lines 239-252. -/
def processFieldA (field : String) (v : PyVal) : PyVal :=
  if strEndsWith field "_price" || field == "price" then agent_convert_price v
  else if strEndsWith field "_date" || field == "date" then agent_parse_date v
  else agent_clean_text v

/-- One record through WebScraperAgent.process_data: every declared field is
converted (absent fields become None) and a processed_at stamp is appended. -/
def process_item_A (field_names : List String) (now : String) (item : Record) : Record :=
  (field_names.map fun field =>
    match dlookup item field with
    | some v => (field, processFieldA field v)
    | none => (field, PyVal.vNone)) ++ [("processed_at", .vStr now)]

/-- WebScraperAgent.process_data, lines 214-267, over the extract field names
of the job's selector configuration. -/
def process_data (field_names : List String) (now : String) (raw : List Record) :
    List Record :=
  raw.map (process_item_A field_names now)

/-- The persisted Job record of Pipeline A.  The selector configuration is
represented by the list of its extract field names, the only part of it the
lifecycle and field normalizer observe. -/
structure JobInfo where
  job_id : String
  job_name : String
  url : String
  extract_fields : List String
  status : String
  created_at : String
  last_updated : String
  items_count : Option Nat := none
  output_file : Option String := none
  error : Option String := none

/-- WebScraperAgent.create_scraping_job, src/agent.py lines 87-121. -/
def create_scraping_job (url : String) (extract_fields : List String)
    (job_name : Option String) (job_id now : String) : JobInfo :=
  { job_id := job_id, job_name := job_name.getD ("job_" ++ job_id), url := url,
    extract_fields := extract_fields, status := "created", created_at := now,
    last_updated := now }

/-- What the in-process extraction container hands back to execute_job: a
record list (possibly empty), or an exception escaping the try block. -/
inductive ScrapeOutcome where
  | ok (raw : List Record)
  | exc (msg : String)

/-- WebScraperAgent.execute_job, src/agent.py lines 123-212, as the sequence
of job states persisted to the job file plus the returned flag.  The loaded
job is first rewritten with status running; a zero-record extraction marks it
failed with an error; otherwise the data is processed and the job completed
with the processed item count and the output path; an exception marks it
failed with the message. -/
def execute_job (job : JobInfo) (outcome : ScrapeOutcome) (now : String) :
    List JobInfo × Bool :=
  let running := { job with status := "running", last_updated := now }
  match outcome with
  | .exc msg =>
    let failed := { running with status := "failed", error := some msg, last_updated := now }
    ([running, failed], false)
  | .ok raw =>
    if raw.isEmpty then
      let failed :=
        { running with status := "failed", error := some "No data retrieved", last_updated := now }
      ([running, failed], false)
    else
      let processed := process_data job.extract_fields now raw
      let done :=
        { running with status := "completed", items_count := some processed.length,
                       output_file := some ("output/" ++ job.job_name ++ ".xlsx"),
                       last_updated := now }
      ([running, done], true)

/-- The forward order of the Job status machine of the specification:
created before queued/running before completed/failed. -/
def statusRank : String → Nat
  | "created" => 0
  | "queued" => 1
  | "running" => 1
  | "completed" => 2
  | "failed" => 2
  | _ => 0

/-! ## Pipeline B orchestrator feedback (src/agent/agent.py lines 235-282) -/

/-- One persisted feedback file. -/
structure FeedbackEntry where
  task_id : String
  url : String
  data_description : String
  rating : Option ℤ
  feedback : String

/-- The persistent state process_feedback touches: the selector cache keyed by
task id and the append-only feedback store. -/
structure AgentStore (σ : Type) where
  selectors : List (String × σ)
  feedbacks : List FeedbackEntry

/-- The rating coercion of process_feedback: int() of the raw string, then
anything outside 1..10 discarded as None. -/
def coerceRating (rating : String) : Option ℤ :=
  match pyIntOfString rating with
  | some n => if n < 1 || n > 10 then none else some n
  | none => none

/-- Agent.process_feedback: store the feedback entry unconditionally; when a
valid rating below 5 was given, refine the cached selectors for the task id
(the generator call is abstracted as the refine argument) and overwrite the
cache.  hash abstracts utils.helpers.generate_hash (an MD5 hex digest). -/
def process_feedback {σ : Type} (hash : String → String)
    (refine : String → String → Option σ → String → σ) (st : AgentStore σ)
    (rating feedback url data_description : String) : AgentStore σ :=
  let task_id := hash (url ++ "_" ++ data_description)
  let r := coerceRating rating
  let entry : FeedbackEntry :=
    { task_id := task_id, url := url, data_description := data_description,
      rating := r, feedback := feedback }
  let st1 : AgentStore σ := { st with feedbacks := st.feedbacks ++ [entry] }
  match r with
  | some n =>
    if n < 5 then
      let existing := dlookup st1.selectors task_id
      let improved := refine url data_description existing feedback
      { st1 with selectors := dictInsert st1.selectors task_id improved }
    else st1
  | none => st1

/-! ## ProxyManager (src/scraper/proxy_manager.py)

get_proxy runs with self.lock held; threading.Lock is not reentrant, so the
recursive self.get_proxy call on the max-uses path re-acquires the held lock
and blocks forever.  That blocked call is the deadlock outcome; the state it
carries records the writes performed before the recursion. -/

structure PMState where
  init_pool : List String
  max_uses : Nat
  rotation_interval : Nat
  proxies : List String
  proxy_uses : List (String × Nat)
  blacklisted : List String
  last_rotation_time : Nat

inductive GPOutcome where
  | ok (p : Option String)
  | deadlock

/-- self.proxy_uses.get(p, 0). -/
def usesOf (uses : List (String × Nat)) (p : String) : Nat :=
  (dlookup uses p).getD 0

/-- Python min(available, key=uses): the first element attaining the minimum. -/
def leastUsed (uses : List (String × Nat)) : List String → Option String
  | [] => none
  | x :: xs =>
    some (xs.foldl (fun best p => if usesOf uses p < usesOf uses best then p else best) x)

/-- ProxyManager.get_proxy, lines 157-198.  The interval-based refresh reloads
the pool from its initialization source (init_pool) and resets the counters;
candidate filtering removes the persistent blacklist and the caller-supplied
one; the least-used candidate is served and counted, unless it already
reached max_uses, in which case the pool is refreshed and the recursive retry
deadlocks on the non-reentrant lock. -/
def get_proxy (st : PMState) (now : Nat) (blacklist : List String) :
    GPOutcome × PMState :=
  let st :=
    if now - st.last_rotation_time > st.rotation_interval then
      { st with proxies := st.init_pool, proxy_uses := [], last_rotation_time := now }
    else st
  let available := (st.proxies.filter fun p => !st.blacklisted.contains p).filter
    fun p => !blacklist.contains p
  match leastUsed st.proxy_uses available with
  | none => (.ok none, st)
  | some least =>
    if st.max_uses ≤ usesOf st.proxy_uses least then
      (.deadlock, { st with proxies := st.init_pool, proxy_uses := [] })
    else
      (.ok (some least),
       { st with proxy_uses := dictInsert st.proxy_uses least (usesOf st.proxy_uses least + 1) })

/-- n consecutive get_proxy calls from one caller; a deadlocked call blocks
that caller, so the sequence stops there. -/
def callSeq (st : PMState) (now : Nat) (blacklist : List String) :
    Nat → List GPOutcome × PMState
  | 0 => ([], st)
  | n + 1 =>
    match get_proxy st now blacklist with
    | (.deadlock, st1) => ([.deadlock], st1)
    | (o, st1) =>
      let (os, st2) := callSeq st1 now blacklist n
      (o :: os, st2)

/-- The hard-coded fallback pool of _initialize_proxies, lines 61-65. -/
def fallback_proxies : List String :=
  ["103.152.112.162:80", "193.239.86.249:3128", "94.231.94.163:3128"]

/-- A freshly constructed manager over a given initialization source. -/
def pmInit (pool : List String) (max_uses rotation_interval : Nat) : PMState :=
  { init_pool := pool, max_uses := max_uses, rotation_interval := rotation_interval,
    proxies := pool, proxy_uses := [], blacklisted := [], last_rotation_time := 0 }

/-! ## Shared lemmas -/

/-- Replacing commas by periods turns the period count into the sum of both
separator counts. -/
theorem count_dot_map_comma (l : List Char) :
    ((l.map fun c => if c == ',' then '.' else c).count '.') = l.count ',' + l.count '.' := by
  induction l with
  | nil => rfl
  | cons c cs ih =>
    show (((if c == ',' then '.' else c)) :: (cs.map fun c => if c == ',' then '.' else c)).count '.'
        = (c :: cs).count ',' + (c :: cs).count '.'
    rw [List.count_cons, List.count_cons, List.count_cons, ih]
    by_cases h : c = ','
    · subst h
      simp
      omega
    · by_cases h2 : c = '.'
      · subst h2
        simp
        omega
      · simp [h, h2]

/-- Looking up after a dict update: the updated key sees the new value, every
other key is untouched. -/
theorem dlookup_dictInsert {α : Type} (r : List (String × α)) (k' k : String) (v : α) :
    dlookup (dictInsert r k' v) k = if k' = k then some v else dlookup r k := by
  induction r with
  | nil =>
    by_cases h : k' = k <;> simp [dictInsert, dlookup, h]
  | cons p r ih =>
    by_cases hp : p.1 = k'
    · by_cases h : k' = k
      · subst h
        simp [dictInsert, dlookup, hp]
      · have hpk : ¬p.1 = k := fun he => h (hp ▸ he)
        simp [dictInsert, dlookup, hp, h, hpk]
    · by_cases hpk : p.1 = k
      · have hk : ¬k' = k := fun he => hp (he ▸ hpk)
        have hk2 : ¬k = k' := fun he => hk he.symm
        simp [dictInsert, dlookup, hp, hpk, hk, hk2]
      · simp [dictInsert, dlookup, hp, hpk, ih]

/-- A key bound nowhere in an association list looks up to none. -/
theorem dlookup_eq_none {α : Type} (r : List (String × α)) (k : String)
    (h : ∀ p ∈ r, p.1 ≠ k) : dlookup r k = none := by
  induction r with
  | nil => rfl
  | cons p r ih =>
    have hp : p.1 ≠ k := h p (by simp)
    simp only [dlookup, beq_iff_eq, hp, if_false]
    exact ih fun q hq => h q (by simp [hq])

/-- A successful lookup comes from an entry of the list. -/
theorem dlookup_mem {α : Type} (r : List (String × α)) (k : String) (v : α)
    (h : dlookup r k = some v) : ∃ p ∈ r, p.1 = k ∧ p.2 = v := by
  induction r with
  | nil => simp [dlookup] at h
  | cons p r ih =>
    by_cases hp : p.1 = k
    · simp only [dlookup, beq_iff_eq, hp, if_true, Option.some.injEq] at h
      exact ⟨p, by simp, hp, h⟩
    · simp only [dlookup, beq_iff_eq, hp, if_false] at h
      obtain ⟨q, hq, hqs⟩ := ih h
      exact ⟨q, by simp [hq], hqs⟩

/-- Folding dict updates whose keys all differ from k leaves the lookup of k
untouched. -/
theorem dlookup_foldl_untouched {α : Type} (g : String → String)
    (item : List (String × α)) (acc : List (String × α)) (k : String)
    (h : ∀ p ∈ item, g p.1 ≠ k) :
    dlookup (item.foldl (fun a p => dictInsert a (g p.1) p.2) acc) k = dlookup acc k := by
  induction item generalizing acc with
  | nil => rfl
  | cons p ps ih =>
    rw [List.foldl_cons, ih _ fun q hq => h q (by simp [hq]), dlookup_dictInsert,
      if_neg (h p (by simp))]

/-- Field renaming through a fold of dict updates: when, among the record's
keys, exactly the key k itself is sent to k, the lookup of k after the fold is
the record's own binding, falling back to the accumulator. -/
theorem dlookup_foldl_rename {α : Type} (g : String → String)
    (item : List (String × α)) (acc : List (String × α)) (k : String)
    (hiff : ∀ p ∈ item, (g p.1 = k ↔ p.1 = k)) (hnd : (item.map Prod.fst).Nodup) :
    dlookup (item.foldl (fun a p => dictInsert a (g p.1) p.2) acc) k
      = ((dlookup item k).map some).getD (dlookup acc k) := by
  induction item generalizing acc with
  | nil => simp [dlookup]
  | cons p ps ih =>
    rw [List.foldl_cons]
    by_cases hp : p.1 = k
    · have hg : g p.1 = k := (hiff p (by simp)).2 hp
      have hrest : ∀ q ∈ ps, g q.1 ≠ k := by
        intro q hq hgq
        have hqk : q.1 = k := (hiff q (by simp [hq])).1 hgq
        have hnin : p.1 ∉ ps.map Prod.fst := by
          simp only [List.map_cons, List.nodup_cons] at hnd
          exact hnd.1
        exact hnin (by
          rw [hp, ← hqk]
          exact List.mem_map_of_mem Prod.fst hq)
      rw [dlookup_foldl_untouched _ _ _ _ hrest, dlookup_dictInsert, if_pos hg]
      simp [dlookup, hp]
    · have hg : g p.1 ≠ k := fun h => hp ((hiff p (by simp)).1 h)
      have hnd2 : (ps.map Prod.fst).Nodup := by
        simp only [List.map_cons, List.nodup_cons] at hnd
        exact hnd.2
      rw [ih _ (fun q hq => hiff q (by simp [hq])) hnd2, dlookup_dictInsert, if_neg hg]
      simp [dlookup, hp]

/-- Membership in one variant row of the field mapping: the target is the
row's canonical name, the source is an observed field matching one of the
row's variants case-insensitively, and the canonical name itself is not
observed. -/
theorem rowEntries_mem {fields : List String} {std : String} {variants : List String}
    {kv : String × String} (h : kv ∈ rowEntries fields std variants) :
    kv.2 = std ∧ kv.1 ∈ fields ∧ fields.contains std = false ∧
      ∃ v ∈ variants, strLower kv.1 = strLower v := by
  unfold rowEntries at h
  rw [List.mem_flatMap] at h
  obtain ⟨v, hv, h⟩ := h
  split at h
  · simp at h
  · next hcond =>
    rw [List.mem_map] at h
    obtain ⟨m, hm, rfl⟩ := h
    rw [List.mem_filter] at hm
    refine ⟨rfl, hm.1, ?_, v, hv, by simpa using hm.2⟩
    by_cases hc : fields.contains std = true
    · exfalso
      apply hcond
      rw [hc, Bool.true_and]
      simp only [Bool.not_eq_true', List.isEmpty_eq_false_iff_exists_mem]
      exact ⟨m, List.mem_filter.2 hm⟩
    · simpa using hc

/-- Membership in the full field mapping factors through one variant row. -/
theorem create_field_mapping_mem {fields : List String} {kv : String × String}
    (h : kv ∈ create_field_mapping fields) :
    ∃ std variants, (std, variants) ∈ common_variants ∧ kv ∈ rowEntries fields std variants := by
  unfold create_field_mapping at h
  rw [List.mem_flatten] at h
  obtain ⟨l, hl, hkv⟩ := h
  rw [List.mem_map] at hl
  obtain ⟨row, hrow, rfl⟩ := hl
  exact ⟨row.1, row.2, by simpa using hrow, hkv⟩

/-- When the canonical name title is among the observed fields, the field
mapping contains no entry with source or target title or product_name. -/
theorem mapping_title_suppressed {fields : List String} (ht : "title" ∈ fields) :
    ∀ kv ∈ create_field_mapping fields,
      kv.2 ≠ "title" ∧ kv.1 ≠ "title" ∧ kv.1 ≠ "product_name" ∧ kv.2 ≠ "product_name" := by
  intro kv h
  obtain ⟨std, variants, hrow, hmem⟩ := create_field_mapping_mem h
  obtain ⟨h2, _, hcont, v, hv, hlow⟩ := rowEntries_mem hmem
  have htc : fields.contains "title" = true := List.elem_eq_true_of_mem ht
  have hstd : std ≠ "title" := by
    intro he
    rw [he, htc] at hcont
    exact absurd hcont (by simp)
  have T1 : ∀ row ∈ common_variants, row.1 ≠ "title" →
      ∀ w ∈ row.2, strLower w ≠ strLower "product_name" := by decide
  have T2 : ∀ row ∈ common_variants, ∀ w ∈ row.2, strLower w ≠ strLower "title" := by decide
  have T3 : ∀ row ∈ common_variants, row.1 ≠ "product_name" := by decide
  refine ⟨fun he => hstd (h2.symm.trans he), ?_, ?_,
    fun he => T3 (std, variants) hrow (h2.symm.trans he)⟩
  · intro he
    rw [he] at hlow
    exact T2 (std, variants) hrow v hv hlow.symm
  · intro he
    rw [he] at hlow
    exact T1 (std, variants) hrow hstd v hv hlow.symm

/-! ## Claim theorems -/

/-- C2: the shared price-parsing rule, as implemented by the Pipeline Field
Processor's price conversion and the Data Cleaner's clean_prices, maps
"$1,234.56" to 1234.56, "1.234,56" to 1234.56, "19.99" to 19.99, and "15"
to 15.0. -/
theorem C2_shared_price_rule :
    process_price (.vStr "$1,234.56") = some (123456 / 100) ∧
    process_price (.vStr "1.234,56") = some (123456 / 100) ∧
    process_price (.vStr "19.99") = some (1999 / 100) ∧
    process_price (.vStr "15") = some 15 ∧
    clean_prices [[("price", .vStr "$1,234.56")], [("price", .vStr "1.234,56")],
        [("price", .vStr "19.99")], [("price", .vStr "15")]] default_price_fields
      = [[("price", .vFloat (123456 / 100))], [("price", .vFloat (123456 / 100))],
         [("price", .vFloat (1999 / 100))], [("price", .vFloat 15)]] := by
  have h1 : parse_price_str "$1,234.56" = some (123456 / 100) := by
    simp +decide [parse_price_str, pyFloatOfString, pyStripL, rindexOf, digitsToNat]
    norm_num
  have h2 : parse_price_str "1.234,56" = some (123456 / 100) := by
    simp +decide [parse_price_str, pyFloatOfString, pyStripL, rindexOf, digitsToNat]
    norm_num
  have h3 : parse_price_str "19.99" = some (1999 / 100) := by
    simp +decide [parse_price_str, pyFloatOfString, pyStripL, rindexOf, digitsToNat]
    norm_num
  have h4 : parse_price_str "15" = some 15 := by
    simp +decide [parse_price_str, pyFloatOfString, pyStripL, rindexOf, digitsToNat]
  have r1 : pyRound2 (123456 / 100) = 123456 / 100 := by
    norm_num [pyRound2, roundHalfEvenInt]
  have r2 : pyRound2 (1999 / 100) = 1999 / 100 := by
    norm_num [pyRound2, roundHalfEvenInt]
  have r3 : pyRound2 15 = 15 := by
    norm_num [pyRound2, roundHalfEvenInt]
  refine ⟨by simp [process_price, h1], by simp [process_price, h2],
    by simp [process_price, h3], by simp [process_price, h4], ?_⟩
  simp [clean_prices, default_price_fields, clean_price_value, h1, h2, h3, h4, r1, r2, r3]

/-- C3, counterexample: the Pipeline A price conversion does not treat a comma
more than 3 characters from the end as a thousands separator; it parses
"1,234" to 1.234, which is not the 1234 the claim requires. -/
theorem C3_comma_counterexample :
    convert_price "1,234" = some (1234 / 1000) ∧ ((1234 : ℚ) / 1000) ≠ 1234 := by
  constructor
  · simp +decide [convert_price, pyFloatOfString, pyStripL, digitsToNat, splitOnChar]
    norm_num
  · norm_num

/-- C3, amended: for every string price input whose kept digits-and-separators
form contains exactly one comma and no period, Pipeline A's price conversion
treats the comma as the decimal point regardless of its position: the result
is the float of the string with the comma replaced by a period. -/
theorem C3_comma_amended (s : String)
    (h1 : ((s.toList.filter fun c => c.isDigit || c == '.' || c == ',').count ',') = 1)
    (h2 : ((s.toList.filter fun c => c.isDigit || c == '.' || c == ',').count '.') = 0) :
    convert_price s =
      pyFloatOfString (String.mk
        ((s.toList.filter fun c => c.isDigit || c == '.' || c == ',').map
          fun c => if c == ',' then '.' else c)) := by
  have hs : ¬s = "" := by
    intro h
    subst h
    simp at h1
  have hcnt : (((s.toList.filter fun c => c.isDigit || c == '.' || c == ',').map
      fun c => if c == ',' then '.' else c).count '.') = 1 := by
    rw [count_dot_map_comma, h1, h2]
  unfold convert_price
  rw [if_neg hs]
  simp only [hcnt]
  norm_num

/-- C3, witness: the amended statement applied to the concrete input 1,234,
whose filtered form has one comma and no period. -/
theorem C3_comma_witness :
    ((("1,234".toList.filter fun c => c.isDigit || c == '.' || c == ',').count ',') = 1) ∧
    ((("1,234".toList.filter fun c => c.isDigit || c == '.' || c == ',').count '.') = 0) ∧
    convert_price "1,234" =
      pyFloatOfString (String.mk
        (("1,234".toList.filter fun c => c.isDigit || c == '.' || c == ',').map
          fun c => if c == ',' then '.' else c)) :=
  ⟨by decide, by decide, C3_comma_amended "1,234" (by decide) (by decide)⟩

/-- C5: the Pipeline Field Processor's rating rule yields 4.0 for 8/10, 4.0
for 80 percent, 4.2 for 4.2 out of 5, and no value for a string without a
numeric substring. -/
theorem C5_rating_rule :
    process_rating (.vStr "8/10") = some 4 ∧
    process_rating (.vStr "80%") = some 4 ∧
    process_rating (.vStr "4.2 out of 5") = some (21 / 5) ∧
    (∀ s, firstNumRun s.toList = none → process_rating (.vStr s) = none) := by
  refine ⟨?_, ?_, ?_, ?_⟩
  · simp +decide [process_rating, firstNumRun, pyFloatOfString, pyStripL, digitsToNat,
      strContains, strEndsWith, strLower]
    norm_num
  · simp +decide [process_rating, firstNumRun, pyFloatOfString, pyStripL, digitsToNat,
      strContains, strEndsWith, strLower]
    norm_num
  · simp +decide [process_rating, firstNumRun, pyFloatOfString, pyStripL, digitsToNat,
      strContains, strEndsWith, strLower]
    norm_num
  · intro s h
    simp only [process_rating, h]

/-- C5, witness: a concrete string with no numeric substring yields no
rating. -/
theorem C5_rating_rule_witness :
    firstNumRun "great product".toList = none ∧
    process_rating (.vStr "great product") = none :=
  ⟨by decide, C5_rating_rule.2.2.2 "great product" (by decide)⟩

/-- C4, counterexample: in a dataset observing both title and product_name,
the field mapping is suppressed batch-wide, so a record carrying only
product_name is returned unchanged and its value does not appear under
title. -/
theorem C4_standardize_counterexample :
    standardize_fields [[("product_name", PyVal.vStr "A")], [("title", PyVal.vStr "B")]]
      = [[("product_name", PyVal.vStr "A")], [("title", PyVal.vStr "B")]] ∧
    ((standardize_fields [[("product_name", PyVal.vStr "A")], [("title", PyVal.vStr "B")]]).map
      fun r => dlookup r "title") = [none, some (PyVal.vStr "B")] := by
  exact ⟨rfl, rfl⟩

/-- C4, amended: for every dataset whose observed field names include both
title and product_name, field-name standardization leaves every record's
title and product_name bindings exactly as they were: product_name-only
records keep the value under product_name (it is not moved to title), and an
existing title value is never overwritten or merged. -/
theorem C4_standardize_amended (data : List Record)
    (ht : "title" ∈ allFields data) (hp : "product_name" ∈ allFields data)
    (hnd : ∀ item ∈ data, (item.map Prod.fst).Nodup) :
    standardize_fields data
        = data.map (standardize_item (create_field_mapping (allFields data))) ∧
    ∀ item ∈ data,
      dlookup (standardize_item (create_field_mapping (allFields data)) item) "title"
          = dlookup item "title" ∧
      dlookup (standardize_item (create_field_mapping (allFields data)) item) "product_name"
          = dlookup item "product_name" := by
  have M := mapping_title_suppressed ht
  constructor
  · have hne : ¬data.isEmpty = true := by
      cases data
      · simp [allFields] at ht
      · simp
    simp [standardize_fields, hne]
  · intro item hitem
    have hnd' := hnd item hitem
    have key : ∀ (k : String),
        dlookup (create_field_mapping (allFields data)) k = none →
        (∀ kv ∈ create_field_mapping (allFields data), kv.2 ≠ k) →
        dlookup (standardize_item (create_field_mapping (allFields data)) item) k
          = dlookup item k := by
      intro k hmk hval
      have hiff : ∀ p ∈ item,
          ((dlookup (create_field_mapping (allFields data)) p.1).getD p.1 = k ↔ p.1 = k) := by
        intro p hpmem
        constructor
        · intro hgk
          rcases hdl : dlookup (create_field_mapping (allFields data)) p.1 with _ | t
          · rw [hdl] at hgk
            simpa using hgk
          · rw [hdl] at hgk
            simp only [Option.getD_some] at hgk
            obtain ⟨q, hq, hq1, hq2⟩ := dlookup_mem _ _ _ hdl
            exact absurd (hq2.trans hgk) (hval q hq)
        · intro hpk
          rw [hpk, hmk]
          rfl
      calc dlookup (standardize_item (create_field_mapping (allFields data)) item) k
          = ((dlookup item k).map some).getD (dlookup ([] : List (String × PyVal)) k) :=
            dlookup_foldl_rename
              (fun x => (dlookup (create_field_mapping (allFields data)) x).getD x)
              item [] k hiff hnd'
        _ = dlookup item k := by
            cases dlookup item k <;> rfl
    have hmt : dlookup (create_field_mapping (allFields data)) "title" = none :=
      dlookup_eq_none _ _ fun kv hkv => (M kv hkv).2.1
    have hmp : dlookup (create_field_mapping (allFields data)) "product_name" = none :=
      dlookup_eq_none _ _ fun kv hkv => (M kv hkv).2.2.1
    exact ⟨key "title" hmt fun kv hkv => (M kv hkv).1,
      key "product_name" hmp fun kv hkv => (M kv hkv).2.2.2⟩

/-- C4, witness: the amended statement applied to a concrete two-record
dataset observing both field names. -/
theorem C4_standardize_witness :
    ("title" ∈ allFields [[("product_name", PyVal.vStr "A")], [("title", PyVal.vStr "B")]]) ∧
    dlookup
        (standardize_item
          (create_field_mapping
            (allFields [[("product_name", PyVal.vStr "A")], [("title", PyVal.vStr "B")]]))
          [("product_name", PyVal.vStr "A")]) "title"
      = dlookup [("product_name", PyVal.vStr "A")] "title" ∧
    dlookup
        (standardize_item
          (create_field_mapping
            (allFields [[("product_name", PyVal.vStr "A")], [("title", PyVal.vStr "B")]]))
          [("product_name", PyVal.vStr "A")]) "product_name"
      = dlookup [("product_name", PyVal.vStr "A")] "product_name" := by
  have h := (C4_standardize_amended
      [[("product_name", PyVal.vStr "A")], [("title", PyVal.vStr "B")]]
      (by decide) (by decide) (by decide)).2
      [("product_name", PyVal.vStr "A")] (by simp)
  exact ⟨by decide, h.1, h.2⟩

/-- C1, counterexample: executing a job whose persisted status is completed
first rewrites the job file with status running, moving the status backward
from completed to running. -/
theorem C1_job_lifecycle_counterexample :
    ((execute_job
        { job_id := "j1", job_name := "n", url := "u", extract_fields := ["title"],
          status := "completed", created_at := "t0", last_updated := "t0",
          items_count := some 3, output_file := some "output/n.xlsx" }
        (.ok [[("title", PyVal.vStr "x")]]) "t1").1.map JobInfo.status)
      = ["running", "completed"] ∧
    statusRank "running" < statusRank "completed" :=
  ⟨rfl, by decide⟩

/-- C1, amended: a freshly created job has status created; executing a
created job with a zero-record extraction persists running then failed with
the non-empty error No data retrieved and returns false; with a non-empty
extraction it persists running then completed with items_count equal to the
number of processed records and a non-empty output file, returning true; and
every execution starting from a non-terminal status only moves the persisted
status forward.  (Re-executing a completed or failed job, however, first
rewrites it to running, which is what the counterexample exhibits.) -/
theorem C1_job_lifecycle_amended :
    (∀ url fields name id now,
      (create_scraping_job url fields name id now).status = "created") ∧
    (∀ job now, job.status = "created" →
      (execute_job job (.ok []) now).2 = false ∧
      ((execute_job job (.ok []) now).1.map JobInfo.status) = ["running", "failed"] ∧
      ∃ e, ((execute_job job (.ok []) now).1.getLast?.bind JobInfo.error) = some e ∧ e ≠ "") ∧
    (∀ job now raw, job.status = "created" → raw ≠ [] →
      (execute_job job (.ok raw) now).2 = true ∧
      ((execute_job job (.ok raw) now).1.map JobInfo.status) = ["running", "completed"] ∧
      ((execute_job job (.ok raw) now).1.getLast?.bind JobInfo.items_count)
        = some (process_data job.extract_fields now raw).length ∧
      ∃ f, ((execute_job job (.ok raw) now).1.getLast?.bind JobInfo.output_file) = some f
        ∧ f ≠ "") ∧
    (∀ job outcome now, statusRank job.status ≤ statusRank "running" →
      List.Chain' (fun a b => statusRank a ≤ statusRank b)
        (job.status :: (execute_job job outcome now).1.map JobInfo.status)) := by
  refine ⟨fun _ _ _ _ _ => rfl, ?_, ?_, ?_⟩
  · intro job now _
    exact ⟨rfl, rfl, "No data retrieved", rfl, by decide⟩
  · intro job now raw _ hraw
    cases raw with
    | nil => exact absurd rfl hraw
    | cons a l =>
      refine ⟨rfl, rfl, rfl, "output/" ++ job.job_name ++ ".xlsx", rfl, ?_⟩
      intro hempty
      have hlen : ("output/" ++ job.job_name ++ ".xlsx").length = 0 := by rw [hempty]; rfl
      simp [String.length_append] at hlen
      exact absurd hlen.2 (by decide)
  · intro job outcome now h
    cases outcome with
    | exc msg =>
      show List.Chain' (fun a b => statusRank a ≤ statusRank b)
        (job.status :: ["running", "failed"])
      exact List.chain'_cons.2 ⟨h, List.chain'_cons.2 ⟨by decide, List.chain'_singleton _⟩⟩
    | ok raw =>
      cases raw with
      | nil =>
        show List.Chain' (fun a b => statusRank a ≤ statusRank b)
          (job.status :: ["running", "failed"])
        exact List.chain'_cons.2 ⟨h, List.chain'_cons.2 ⟨by decide, List.chain'_singleton _⟩⟩
      | cons a l =>
        show List.Chain' (fun a b => statusRank a ≤ statusRank b)
          (job.status :: ["running", "completed"])
        exact List.chain'_cons.2 ⟨h, List.chain'_cons.2 ⟨by decide, List.chain'_singleton _⟩⟩

/-- C1, witness: the amended statement applied to a concrete created job and
a one-record extraction. -/
theorem C1_job_lifecycle_witness :
    (execute_job
        { job_id := "j2", job_name := "n", url := "u", extract_fields := ["title"],
          status := "created", created_at := "t0", last_updated := "t0" }
        (.ok [[("title", PyVal.vStr "x")]]) "t1").2 = true ∧
    ((execute_job
        { job_id := "j2", job_name := "n", url := "u", extract_fields := ["title"],
          status := "created", created_at := "t0", last_updated := "t0" }
        (.ok [[("title", PyVal.vStr "x")]]) "t1").1.map JobInfo.status)
      = ["running", "completed"] := by
  have h := C1_job_lifecycle_amended.2.2.1
    { job_id := "j2", job_name := "n", url := "u", extract_fields := ["title"],
      status := "created", created_at := "t0", last_updated := "t0" }
    "t1" [[("title", PyVal.vStr "x")]] rfl (by simp)
  exact ⟨h.1, h.2.1⟩

/-- C6: process_feedback coerces the rating to an integer treated as absent
when unparsable or outside 1..10, always appends the feedback entry, and
overwrites the cached Selector Record with the refined selectors exactly when
a valid rating strictly below 5 was given. -/
theorem C6_feedback_threshold (σ : Type) (hash : String → String)
    (refine_fn : String → String → Option σ → String → σ) (st : AgentStore σ)
    (rating feedback url desc : String) :
    (process_feedback hash refine_fn st rating feedback url desc).feedbacks
      = st.feedbacks ++
        [⟨hash (url ++ "_" ++ desc), url, desc, coerceRating rating, feedback⟩] ∧
    (∀ n, coerceRating rating = some n → 1 ≤ n ∧ n ≤ 10) ∧
    (pyIntOfString rating = none → coerceRating rating = none) ∧
    (∀ n, pyIntOfString rating = some n → (n < 1 ∨ 10 < n) → coerceRating rating = none) ∧
    (∀ n, coerceRating rating = some n → n < 5 →
      dlookup (process_feedback hash refine_fn st rating feedback url desc).selectors
          (hash (url ++ "_" ++ desc))
        = some (refine_fn url desc
            (dlookup st.selectors (hash (url ++ "_" ++ desc))) feedback)) ∧
    ((∀ n, coerceRating rating = some n → 5 ≤ n) →
      (process_feedback hash refine_fn st rating feedback url desc).selectors
        = st.selectors) := by
  refine ⟨?_, ?_, ?_, ?_, ?_, ?_⟩
  · simp only [process_feedback]
    rcases hr : coerceRating rating with _ | n
    · rfl
    · by_cases hn : n < 5 <;> simp [hn]
  · intro n h
    rcases hpi : pyIntOfString rating with _ | m
    · simp only [coerceRating, hpi] at h
      exact absurd h (by simp)
    · simp only [coerceRating, hpi] at h
      split at h
      · simp at h
      · next hcond =>
        rw [Option.some.injEq] at h
        subst h
        simp only [Bool.or_eq_true, decide_eq_true_eq, not_or] at hcond
        omega
  · intro h
    simp only [coerceRating, h]
  · intro n h hb
    simp only [coerceRating, h]
    have hc : (decide (n < 1) || decide (n > 10)) = true := by
      rcases hb with hb | hb <;> simp [hb]
    simp [hc]
  · intro n hr hn
    simp only [process_feedback, hr, hn, if_true]
    rw [dlookup_dictInsert]
    simp
  · intro hge
    simp only [process_feedback]
    rcases hr : coerceRating rating with _ | n
    · rfl
    · have h5 : 5 ≤ n := hge n hr
      have hn : ¬n < 5 := by omega
      simp [hn]

/-- C6, witness: rating 4 overwrites the cached record with the refined
selectors; rating 6 leaves the cache unchanged. -/
theorem C6_feedback_threshold_witness :
    coerceRating "4" = some 4 ∧ coerceRating "6" = some 6 ∧
    dlookup (process_feedback (fun s => s) (fun _ _ _ fb => fb)
        ⟨[("u_d", "orig")], []⟩ "4" "bad run" "u" "d").selectors "u_d"
      = some "bad run" ∧
    (process_feedback (fun s => s) (fun _ _ _ fb => fb)
        ⟨[("u_d", "orig")], []⟩ "6" "fine" "u" "d").selectors = [("u_d", "orig")] := by
  refine ⟨by decide, by decide, ?_, ?_⟩
  · exact (C6_feedback_threshold String (fun s => s) (fun _ _ _ fb => fb)
      ⟨[("u_d", "orig")], []⟩ "4" "bad run" "u" "d").2.2.2.2.1 4 (by decide) (by decide)
  · refine (C6_feedback_threshold String (fun s => s) (fun _ _ _ fb => fb)
      ⟨[("u_d", "orig")], []⟩ "6" "fine" "u" "d").2.2.2.2.2 ?_
    intro n h
    have h6 : coerceRating "6" = some 6 := by decide
    rw [h6, Option.some.injEq] at h
    omega

/-- C7: with the three fallback proxies and max_uses 2, six consecutive calls
serve each proxy exactly twice in least-used order, but the seventh call,
after refreshing the pool and resetting the counters, deadlocks on the
non-reentrant lock inside the recursive retry instead of returning a
proxy. -/
theorem C7_proxy_rotation_deadlock :
    (callSeq (pmInit fallback_proxies 2 300) 0 [] 7).1
      = [.ok (some "103.152.112.162:80"), .ok (some "193.239.86.249:3128"),
         .ok (some "94.231.94.163:3128"), .ok (some "103.152.112.162:80"),
         .ok (some "193.239.86.249:3128"), .ok (some "94.231.94.163:3128"),
         .deadlock] ∧
    (callSeq (pmInit fallback_proxies 2 300) 0 [] 7).2.proxy_uses = [] ∧
    (callSeq (pmInit fallback_proxies 2 300) 0 [] 7).2.proxies = fallback_proxies :=
  ⟨rfl, rfl, rfl⟩

/-- C8: sorting records whose sort column mixes an integer and a string
raises a TypeError, because the tuple marker distinguishes only None from
present values, not numbers from strings. -/
theorem C8_sort_mixed_types_raise :
    sort_data (fun _ => "") [[("a", PyVal.vInt 1)], [("a", PyVal.vStr "x")]] "a" true
      = .error () ∧
    sortKeyLt (sortKeyOf (fun _ => "") "a" true [("a", PyVal.vStr "x")])
        (sortKeyOf (fun _ => "") "a" true [("a", PyVal.vInt 1)])
      = .error () :=
  ⟨rfl, rfl⟩

/-- C9: exporting an empty record list writes exactly one placeholder file
whose path is returned, for each of the csv, excel and json formats (the
spreadsheet placeholder when the export library is present, and still a file,
the CSV fallback, when it is not). -/
theorem C9_empty_export_placeholder (cwd : String) (ts : Nat) (isDir : String → Bool)
    (out : Option String) :
    (export_data true cwd ts isDir [] "csv" out).2
      = [((export_data true cwd ts isDir [] "csv" out).1, .csvRows [["no_data"]])] ∧
    (export_data true cwd ts isDir [] "excel" out).2
      = [((export_data true cwd ts isDir [] "excel" out).1, .excelTable ["no_data"] [])] ∧
    (export_data true cwd ts isDir [] "json" out).2
      = [((export_data true cwd ts isDir [] "json" out).1, .jsonArr [])] ∧
    (export_data false cwd ts isDir [] "excel" out).2
      = [((export_data false cwd ts isDir [] "excel" out).1, .text "no_data\n")] :=
  ⟨rfl, rfl, rfl, rfl⟩

/-- C10: get_proxy does not terminate on the max-uses retry path: with one
proxy and max_uses 1, the first call returns the proxy and the second call
deadlocks on the non-reentrant lock instead of recursing once and
returning. -/
theorem C10_get_proxy_deadlock :
    (callSeq (pmInit ["p"] 1 300) 0 [] 2).1 = [.ok (some "p"), .deadlock] := rfl
